import Mathlib

/-!
Verification of the magstripe-go MSR605 driver core: the ISO track
data-block codec (`encodeISODataBlock` / `decodeISODataBlock`), the
command protocol engine's response collection and splitting
(`executeWaitResult`), and the device facade's status handling and
command construction (`EraseTracks`, `SetBPI`, ...).

Byte strings are modelled as `List Nat` (each element a byte value).
Go string indexing and slicing are modelled by `goIndex` / `goSlice` /
`goSliceFrom`, which return a distinguished `oob` failure exactly when
the corresponding Go operation would panic, so that totality of the
decoder ("no out-of-bounds access") is a provable statement.
-/

namespace Magstripe

/-- Byte value of the Go constant `EscapeCode` (`"\x1B"`). -/
def escByte : Nat := 27

/-- Byte value of the Go constant `EndCode` (`"\x1C"`). -/
def endByte : Nat := 28

/-- Bytes of the Go literal `"\x1bs\x1b\x01"`, the ISO data-block header. -/
def isoHeader : List Nat := [27, 115, 27, 1]

/-- Bytes of the Go literal `"?" + EndCode`, the ISO data-block terminator. -/
def isoTerminator : List Nat := [63, 28]

/-- Model of Go `strings.Index(s, b)` for a single-byte needle: index of the
first occurrence of byte `b` in `s`, or `none` where Go returns `-1`. -/
def indexOfByte (b : Nat) : List Nat → Option Nat
  | [] => none
  | a :: rest => if a = b then some 0 else (indexOfByte b rest).map (· + 1)

/-- Model of Go `strings.LastIndex(s, b)` for a single-byte needle: index of
the last occurrence of byte `b` in `s`, or `none` where Go returns `-1`. -/
def lastIndexOfByte (b : Nat) : List Nat → Option Nat
  | [] => none
  | a :: rest =>
    match lastIndexOfByte b rest with
    | some i => some (i + 1)
    | none => if a = b then some 0 else none

/-- Errors produced by `decodeISODataBlock`, one constructor per
`fmt.Errorf` site in the Go source (positions carried where the Go message
interpolates them). -/
inductive DecodeError where
  | malformedHeader
  | missingTerminator
  | missingEscAfterStrip1
  | missingMarker2 (pos : Nat)
  | missingEscAfterStrip2
  | missingMarker3 (pos : Nat)
deriving DecidableEq, Repr

/-- Outcome classification for the decoder: either one of its declared
errors, or `oob`, the state a Go run would reach only by an out-of-bounds
string index/slice (a panic). -/
inductive DecodeFailure where
  | err (e : DecodeError)
  | oob
deriving DecidableEq, Repr

/-- Model of the Go slice expression `s[lo:hi]`: panics (`oob`) unless
`lo ≤ hi ≤ len(s)`. -/
def goSlice (s : List Nat) (lo hi : Nat) : Except DecodeFailure (List Nat) :=
  if lo ≤ hi ∧ hi ≤ s.length then .ok ((s.drop lo).take (hi - lo)) else .error .oob

/-- Model of the Go slice expression `s[lo:]`: panics (`oob`) unless
`lo ≤ len(s)`. -/
def goSliceFrom (s : List Nat) (lo : Nat) : Except DecodeFailure (List Nat) :=
  if lo ≤ s.length then .ok (s.drop lo) else .error .oob

/-- Model of the Go index expression `s[i]`: panics (`oob`) unless
`i < len(s)`. -/
def goIndex (s : List Nat) (i : Nat) : Except DecodeFailure Nat :=
  match s[i]? with
  | some b => .ok b
  | none => .error .oob

/-- Tests whether a decoder outcome is the out-of-bounds (panic) state. -/
def isOobFailure {α : Type} : Except DecodeFailure α → Bool
  | .error .oob => true
  | _ => false

/-- Third stage of `decodeISODataBlock` (Go lines "Third strip" onward):
`e2` is the Go variable `strip2End` after its possible `+= 2` adjustment;
`strip3Start := e2 + 2`; the `ESC 0x03` marker is checked at `data[e2:strip3Start]`
and track 3 is `data[strip3Start : len(data)-2]` unless it starts with `ESC`. -/
def decodeTrack3 (data : List Nat) (e2 : Nat) (strip1 strip2 : List Nat) :
    Except DecodeFailure (List Nat × List Nat × List Nat) :=
  if e2 + 2 ≥ data.length then .error (.err (.missingMarker3 e2))
  else match goSlice data e2 (e2 + 2) with
    | .error e => .error e
    | .ok m3 =>
      if m3 ≠ [27, 3] then .error (.err (.missingMarker3 e2))
      else if e2 + 2 < data.length then
        match goIndex data (e2 + 2) with
        | .error e => .error e
        | .ok c =>
          if c ≠ 27 then
            match goSlice data (e2 + 2) (data.length - 2) with
            | .error e => .error e
            | .ok strip3 => .ok (strip1, strip2, strip3)
          else .ok (strip1, strip2, [])
      else .ok (strip1, strip2, [])

/-- Second stage of `decodeISODataBlock` (Go lines "Second strip"): `e1` is
the Go variable `strip1End` after its possible `+= 2` adjustment;
`strip2Start := e1 + 2`; the `ESC 0x02` marker is checked at
`data[e1:strip2Start]`, then the scan for the next `ESC` runs from
`strip2Start`, with the zero-length-field adjustment `strip2End += 2`. -/
def decodeTrack2 (data : List Nat) (e1 : Nat) (strip1 : List Nat) :
    Except DecodeFailure (List Nat × List Nat × List Nat) :=
  if e1 + 2 ≥ data.length then .error (.err (.missingMarker2 e1))
  else match goSlice data e1 (e1 + 2) with
    | .error e => .error e
    | .ok m2 =>
      if m2 ≠ [27, 2] then .error (.err (.missingMarker2 e1))
      else match goSliceFrom data (e1 + 2) with
        | .error e => .error e
        | .ok rest2 =>
          match indexOfByte 27 rest2 with
          | none => .error (.err .missingEscAfterStrip2)
          | some i2 =>
            if i2 + (e1 + 2) = e1 + 2 then decodeTrack3 data (e1 + 2 + 2) strip1 []
            else match goSlice data (e1 + 2) (i2 + (e1 + 2)) with
              | .error e => .error e
              | .ok strip2 => decodeTrack3 data (i2 + (e1 + 2)) strip1 strip2

/-- First stage of `decodeISODataBlock` after the header and terminator
checks (Go lines "First strip"): scan from `strip1Start = 4` for the next
`ESC`; a zero-length field advances `strip1End` by 2 (the Go
`strip1End += 2` branch), a non-empty field is `data[4:strip1End]`. -/
def decodeStrips (data : List Nat) :
    Except DecodeFailure (List Nat × List Nat × List Nat) :=
  match indexOfByte 27 (data.drop 4) with
  | none => .error (.err .missingEscAfterStrip1)
  | some i1 =>
    if i1 + 4 = 4 then decodeTrack2 data (4 + 2) []
    else match goSlice data 4 (i1 + 4) with
      | .error e => .error e
      | .ok strip1 => decodeTrack2 data (i1 + 4) strip1

/-- Model of the Go function `decodeISODataBlock`: header check
(`len(data) < 4 || data[:4] != ESC s ESC 0x01`), terminator check
(`len(data) < 2 || data[len(data)-2:] != "?" FS`; short-circuit order
preserved), then the three strip-parsing stages. -/
def decodeISODataBlock (data : List Nat) :
    Except DecodeFailure (List Nat × List Nat × List Nat) :=
  if data.length < 4 ∨ data.take 4 ≠ isoHeader then
    .error (.err .malformedHeader)
  else if data.length < 2 ∨ data.drop (data.length - 2) ≠ isoTerminator then
    .error (.err .missingTerminator)
  else decodeStrips data

/-- Model of the Go function `encodeISODataBlock`: the literal
concatenation `"\x1bs\x1b\x01" + s1 + "\x1b\x02" + s2 + "\x1b\x03" + s3 + "?\x1C"`. -/
def encodeISODataBlock (strip1 strip2 strip3 : List Nat) : List Nat :=
  [27, 115, 27, 1] ++ strip1 ++ [27, 2] ++ strip2 ++ [27, 3] ++ strip3 ++ [63, 28]

/-! ## Command protocol engine (`executeWaitResult`) -/

/-- Errors of `executeWaitResult`, one constructor per `errors.New` site. -/
inductive EngineError where
  | timeout
  | invalidResponseFormat
  | incompleteResponse
deriving DecidableEq, Repr

/-- Result triple of a successful `executeWaitResult` call: the status byte,
the bytes after it, and the bytes before the last escape byte. -/
structure CommandResponse where
  status : Nat
  result : List Nat
  data : List Nat
deriving DecidableEq, Repr

/-- Model of the read-poll loop of `executeWaitResult`: `chunks` is the
sequence of byte slices the transport yields before the timeout window
closes (a zero-byte read is an empty chunk, after which the loop sleeps and
retries). Each non-empty chunk is appended to the accumulator; accumulation
stops early as soon as the accumulated response contains an escape byte. -/
def collectResponseAux : List Nat → List (List Nat) → List Nat
  | acc, [] => acc
  | acc, c :: rest =>
    if c.length = 0 then collectResponseAux acc rest
    else
      let acc2 := acc ++ c
      if acc2.contains 27 then acc2 else collectResponseAux acc2 rest

/-- Model of the response-splitting tail of `executeWaitResult` (Go lines
146–169): an empty accumulated response is a timeout; otherwise the buffer
is split at the last escape byte into status / result / data, failing with
`invalidResponseFormat` when no escape byte exists and `incompleteResponse`
when the escape byte is the final byte. -/
def parseResponse (response : List Nat) : Except EngineError CommandResponse :=
  if response.length = 0 then .error .timeout
  else
    match lastIndexOfByte 27 response with
    | none => .error .invalidResponseFormat
    | some pos =>
      if pos + 1 ≥ response.length then .error .incompleteResponse
      else .ok { status := response.getD (pos + 1) 0
                 result := response.drop (pos + 2)
                 data := response.take pos }

/-- Model of `executeWaitResult` as a function of the transport's behaviour
within the timeout window: collect the response chunks, then split. -/
def executeWaitResult (chunks : List (List Nat)) : Except EngineError CommandResponse :=
  parseResponse (collectResponseAux [] chunks)

/-! ## Device facade -/

/-- Errors surfaced by the device facade: an engine failure propagated
verbatim, a non-`'0'` status byte reported by a named operation (the name
is the identifier used in the Go `fmt.Errorf` format string), the `set_bpi`
variant that additionally reports the mode byte, or a decode failure from
the frame codec. -/
inductive MsrError where
  | engine (e : EngineError)
  | statusError (op : String) (status : Nat)
  | statusErrorMode (op : String) (status : Nat) (mode : Nat)
  | decodeFailed (e : DecodeFailure)
deriving DecidableEq, Repr

/-- Tests whether a facade outcome is a device-status failure (as opposed
to an engine, decode, or no failure). -/
def isStatusError {α : Type} : Except MsrError α → Bool
  | .error (.statusError _ _) => true
  | .error (.statusErrorMode _ _ _) => true
  | _ => false

/-- Decoded track triple returned by `ReadTracks` (Go struct `TrackData`). -/
structure TrackData where
  track1 : List Nat
  track2 : List Nat
  track3 : List Nat
deriving DecidableEq, Repr

/-- Status byte `'0'`, the device's success indication. -/
def statusOk : Nat := 48

/-- Model of `ReadTracks` applied to the engine outcome of its `r` command:
non-`'0'` status fails with `read error: <status>`, otherwise the `data`
portion is decoded as an ISO data block. -/
def ReadTracks (r : Except EngineError CommandResponse) : Except MsrError TrackData :=
  match r with
  | .error e => .error (.engine e)
  | .ok resp =>
    if resp.status ≠ statusOk then .error (.statusError "read" resp.status)
    else match decodeISODataBlock resp.data with
      | .error e => .error (.decodeFailed e)
      | .ok (s1, s2, s3) => .ok ⟨s1, s2, s3⟩

/-- Command bytes sent by `WriteTracks`: `"w"` followed by the encoded block. -/
def writeTracksCommand (t1 t2 t3 : List Nat) : List Nat :=
  119 :: encodeISODataBlock t1 t2 t3

/-- Model of `WriteTracks` applied to the engine outcome of its `w` command. -/
def WriteTracks (r : Except EngineError CommandResponse) : Except MsrError Unit :=
  match r with
  | .error e => .error (.engine e)
  | .ok resp =>
    if resp.status ≠ statusOk then .error (.statusError "write" resp.status) else .ok ()

/-- Bitmask built by `EraseTracks` with the Go `mask |= 1 / 2 / 4` updates. -/
def eraseMask (t1 t2 t3 : Bool) : Nat :=
  let m0 : Nat := 0
  let m1 := if t1 then m0 ||| 1 else m0
  let m2 := if t2 then m1 ||| 2 else m1
  if t3 then m2 ||| 4 else m2

/-- Command bytes sent by `EraseTracks`: `"c"` followed by the one-byte mask. -/
def eraseTracksCommand (t1 t2 t3 : Bool) : List Nat :=
  [99, eraseMask t1 t2 t3]

/-- Model of `EraseTracks` applied to the engine outcome of its `c` command. -/
def EraseTracks (r : Except EngineError CommandResponse) : Except MsrError Unit :=
  match r with
  | .error e => .error (.engine e)
  | .ok resp =>
    if resp.status ≠ statusOk then .error (.statusError "erase" resp.status) else .ok ()

/-- Model of `SetCoercivity` applied to the engine outcome of its `x`/`y` command. -/
def SetCoercivity (r : Except EngineError CommandResponse) : Except MsrError Unit :=
  match r with
  | .error e => .error (.engine e)
  | .ok resp =>
    if resp.status ≠ statusOk then .error (.statusError "set_coercivity" resp.status) else .ok ()

/-- Model of `SetBPC` applied to the engine outcome of its `o` command. -/
def SetBPC (r : Except EngineError CommandResponse) : Except MsrError Unit :=
  match r with
  | .error e => .error (.engine e)
  | .ok resp =>
    if resp.status ≠ statusOk then .error (.statusError "set_bpc" resp.status) else .ok ()

/-- Model of `ReadRawTracks` applied to the engine outcome of its `m`
command: on success the raw `data` is returned unprocessed. -/
def ReadRawTracks (r : Except EngineError CommandResponse) : Except MsrError (List Nat) :=
  match r with
  | .error e => .error (.engine e)
  | .ok resp =>
    if resp.status ≠ statusOk then .error (.statusError "read" resp.status) else .ok resp.data

/-- Model of `WriteRawTracks` applied to the engine outcome of its `n` command. -/
def WriteRawTracks (r : Except EngineError CommandResponse) : Except MsrError Unit :=
  match r with
  | .error e => .error (.engine e)
  | .ok resp =>
    if resp.status ≠ statusOk then .error (.statusError "write" resp.status) else .ok ()

/-- Mode bytes accumulated by `SetBPI` from its three nullable-boolean
arguments, in source order: `0xA1`/`0xA0` for track 1 (210/75 bpi),
`0xD2`/`0x4B` for track 2, `0xC1`/`0xC0` for track 3; a `nil` argument
contributes nothing. -/
def bpiModes (b1 b2 b3 : Option Bool) : List Nat :=
  (match b1 with | some true => [161] | some false => [160] | none => []) ++
  (match b2 with | some true => [210] | some false => [75] | none => []) ++
  (match b3 with | some true => [193] | some false => [192] | none => [])

/-- Commands issued by `SetBPI`: one `"b" + mode` command per accumulated mode. -/
def setBPICommands (b1 b2 b3 : Option Bool) : List (List Nat) :=
  (bpiModes b1 b2 b3).map (fun m => [98, m])

/-- The six mode bytes appearing in the `SetBPI` source. -/
def bpiModeTable : List Nat := [161, 160, 210, 75, 193, 192]

/-- Response loop of `SetBPI`: the `i`-th issued command receives the engine
outcome `outcomes i`; a non-`'0'` status fails with
`set_bpi error: <status> for <mode>`. -/
def runBPICommands (outcomes : Nat → Except EngineError CommandResponse) :
    List Nat → Nat → Except MsrError Unit
  | [], _ => .ok ()
  | m :: ms, i =>
    match outcomes i with
    | .error e => .error (.engine e)
    | .ok resp =>
      if resp.status ≠ statusOk then .error (.statusErrorMode "set_bpi" resp.status m)
      else runBPICommands outcomes ms (i + 1)

/-- Model of `SetBPI`: build the mode list from the three nullable booleans,
then issue one command per mode against successive engine outcomes. -/
def SetBPI (b1 b2 b3 : Option Bool)
    (outcomes : Nat → Except EngineError CommandResponse) : Except MsrError Unit :=
  runBPICommands outcomes (bpiModes b1 b2 b3) 0

/-! ## Helper lemmas -/

theorem indexOfByte_lt {b : Nat} :
    ∀ {s : List Nat} {i : Nat}, indexOfByte b s = some i → i < s.length := by
  intro s
  induction s with
  | nil => intro i h; simp [indexOfByte] at h
  | cons a rest ih =>
    intro i h
    simp only [indexOfByte] at h
    by_cases hab : a = b
    · rw [if_pos hab] at h
      cases h
      simp
    · rw [if_neg hab] at h
      simp only [Option.map_eq_some'] at h
      obtain ⟨j, hj, rfl⟩ := h
      have := ih hj
      simp
      omega

theorem indexOfByte_append_cons {b : Nat} :
    ∀ {s : List Nat}, b ∉ s → ∀ t, indexOfByte b (s ++ b :: t) = some s.length := by
  intro s
  induction s with
  | nil => intro _ t; simp [indexOfByte]
  | cons a rest ih =>
    intro hnot t
    have hab : a ≠ b := fun h => hnot (by simp [h])
    have hrest : b ∉ rest := fun h => hnot (by simp [h])
    simp [indexOfByte, hab, ih hrest t]

theorem goSlice_eq_error_iff {s : List Nat} {lo hi : Nat} {e : DecodeFailure} :
    goSlice s lo hi = .error e ↔ (¬(lo ≤ hi ∧ hi ≤ s.length) ∧ e = .oob) := by
  unfold goSlice
  split
  · simp_all
  · simp_all only [Except.error.injEq, true_and, not_false_eq_true]
    exact eq_comm

theorem goSliceFrom_eq_error_iff {s : List Nat} {lo : Nat} {e : DecodeFailure} :
    goSliceFrom s lo = .error e ↔ (¬(lo ≤ s.length) ∧ e = .oob) := by
  unfold goSliceFrom
  split
  · simp_all
  · simp_all only [Except.error.injEq, true_and, not_false_eq_true]
    exact eq_comm

theorem goIndex_eq_error_iff {s : List Nat} {i : Nat} {e : DecodeFailure} :
    goIndex s i = .error e ↔ (s.length ≤ i ∧ e = .oob) := by
  unfold goIndex
  rcases h : s[i]? with _ | b
  · rw [List.getElem?_eq_none_iff] at h
    simp only [Except.error.injEq, h, true_and]
    exact eq_comm
  · obtain ⟨hlt, _⟩ := List.getElem?_eq_some_iff.mp h
    simp only [reduceCtorEq, false_iff, not_and]
    intro hle
    omega

theorem goSlice_ok {s : List Nat} {lo hi : Nat} (h1 : lo ≤ hi) (h2 : hi ≤ s.length) :
    goSlice s lo hi = .ok ((s.drop lo).take (hi - lo)) := by
  unfold goSlice
  rw [if_pos ⟨h1, h2⟩]

theorem goSliceFrom_ok {s : List Nat} {lo : Nat} (h : lo ≤ s.length) :
    goSliceFrom s lo = .ok (s.drop lo) := by
  unfold goSliceFrom
  rw [if_pos h]

theorem goIndex_ok {s : List Nat} {i : Nat} {b : Nat} (h : s[i]? = some b) :
    goIndex s i = .ok b := by
  unfold goIndex
  rw [h]

theorem take_two_getElem {l : List Nat} {a b : Nat} (h : l.take 2 = [a, b]) :
    l[1]? = some b := by
  have h2 := List.getElem?_take (l := l) (n := 2) (m := 1)
  rw [h] at h2
  simpa using h2.symm

theorem decodeTrack3_ne_malformed (data : List Nat) (e2 : Nat) (s1 s2 : List Nat) :
    decodeTrack3 data e2 s1 s2 ≠ .error (.err .malformedHeader) := by
  unfold decodeTrack3
  repeat' split
  all_goals simp_all [goSlice_eq_error_iff, goIndex_eq_error_iff]

theorem decodeTrack2_ne_malformed (data : List Nat) (e1 : Nat) (s1 : List Nat) :
    decodeTrack2 data e1 s1 ≠ .error (.err .malformedHeader) := by
  unfold decodeTrack2
  repeat' split
  all_goals
    first
      | apply decodeTrack3_ne_malformed
      | simp_all [goSlice_eq_error_iff, goSliceFrom_eq_error_iff]

theorem decodeStrips_ne_malformed (data : List Nat) :
    decodeStrips data ≠ .error (.err .malformedHeader) := by
  unfold decodeStrips
  repeat' split
  all_goals
    first
      | apply decodeTrack2_ne_malformed
      | simp_all [goSlice_eq_error_iff]

theorem decodeTrack3_no_oob (data : List Nat) (e2 : Nat) (s1 s2 : List Nat)
    (hterm : data.drop (data.length - 2) = isoTerminator) (hlen2 : 2 ≤ data.length) :
    isOobFailure (decodeTrack3 data e2 s1 s2) = false := by
  have h63 : data[data.length - 2]? = some 63 := by
    have hd := List.getElem?_drop data (data.length - 2) 0
    rw [hterm] at hd
    simpa using hd.symm
  unfold decodeTrack3
  split
  · rfl
  next hguard =>
    push_neg at hguard
    split
    next e heq =>
      rw [goSlice_eq_error_iff] at heq
      exact (heq.1 ⟨by omega, by omega⟩).elim
    next m3 heq =>
      rw [goSlice_ok (by omega) (by omega)] at heq
      injection heq with heq
      split
      · rfl
      next hm3 =>
        push_neg at hm3
        have h3at : data[e2 + 1]? = some 3 := by
          have htk : (data.drop e2).take 2 = [27, 3] := by
            have : e2 + 2 - e2 = 2 := by omega
            rw [this] at heq
            rw [heq, hm3]
          have := take_two_getElem htk
          rwa [List.getElem?_drop] at this
        split
        next e heq2 =>
          rw [goIndex_eq_error_iff] at heq2
          exact absurd heq2.1 (by omega)
        next c heq2 =>
          split
          · split
            next e heq3 =>
              rw [goSlice_eq_error_iff] at heq3
              exfalso
              have hb : ¬(e2 + 2 ≤ data.length - 2) :=
                fun hh => heq3.1 ⟨hh, by omega⟩
              have he : e2 + 1 = data.length - 2 := by omega
              rw [he, h63] at h3at
              simp at h3at
            next => rfl
          · rfl

theorem decodeTrack2_no_oob (data : List Nat) (e1 : Nat) (s1 : List Nat)
    (hterm : data.drop (data.length - 2) = isoTerminator) (hlen2 : 2 ≤ data.length) :
    isOobFailure (decodeTrack2 data e1 s1) = false := by
  unfold decodeTrack2
  split
  · rfl
  next hguard =>
    push_neg at hguard
    split
    next e heq =>
      rw [goSlice_eq_error_iff] at heq
      exact (heq.1 ⟨by omega, by omega⟩).elim
    next m2 heq =>
      split
      · rfl
      next hm2 =>
        split
        next e heqf =>
          rw [goSliceFrom_eq_error_iff] at heqf
          exact absurd (by omega : e1 + 2 ≤ data.length) heqf.1
        next rest2 heqf =>
          rw [goSliceFrom_ok (by omega)] at heqf
          injection heqf with heqf
          subst heqf
          split
          · rfl
          next i2 hidx =>
            have hi2 := indexOfByte_lt hidx
            rw [List.length_drop] at hi2
            split
            · exact decodeTrack3_no_oob data _ s1 [] hterm hlen2
            next hne =>
              split
              next e heq2 =>
                rw [goSlice_eq_error_iff] at heq2
                exact (heq2.1 ⟨by omega, by omega⟩).elim
              next strip2 heq2 =>
                exact decodeTrack3_no_oob data _ s1 strip2 hterm hlen2

theorem decodeStrips_no_oob (data : List Nat)
    (hterm : data.drop (data.length - 2) = isoTerminator) (hlen4 : 4 ≤ data.length) :
    isOobFailure (decodeStrips data) = false := by
  unfold decodeStrips
  split
  · rfl
  next i1 hidx =>
    have hi1 := indexOfByte_lt hidx
    rw [List.length_drop] at hi1
    split
    · exact decodeTrack2_no_oob data _ [] hterm (by omega)
    next hne =>
      split
      next e heq =>
        rw [goSlice_eq_error_iff] at heq
        exact (heq.1 ⟨by omega, by omega⟩).elim
      next strip1 heq =>
        exact decodeTrack2_no_oob data _ strip1 hterm (by omega)

theorem drop_length_sub_two (l : List Nat) (x y : Nat) :
    (l ++ [x, y]).drop ((l ++ [x, y]).length - 2) = [x, y] := by
  have h : (l ++ [x, y]).length - 2 = l.length := by
    simp
  rw [h, List.drop_left]

theorem encode_roundtrip_decode (t1 t2 t3 : List Nat)
    (h1 : 27 ∉ t1) (h2 : 27 ∉ t2) (h3 : 27 ∉ t3)
    (hn1 : t1 ≠ []) (hn2 : t2 ≠ []) :
    decodeISODataBlock (encodeISODataBlock t1 t2 t3) = .ok (t1, t2, t3) := by
  have ha : t1.length ≠ 0 := fun h => hn1 (List.length_eq_zero.mp h)
  have hb : t2.length ≠ 0 := fun h => hn2 (List.length_eq_zero.mp h)
  set data := encodeISODataBlock t1 t2 t3 with hdata
  have hlen : data.length = t1.length + t2.length + t3.length + 10 := by
    rw [hdata]
    simp only [encodeISODataBlock, List.length_append, List.length_cons, List.length_nil]
    omega
  have hdrop4 : data.drop 4 = t1 ++ 27 :: 2 :: (t2 ++ 27 :: 3 :: (t3 ++ [63, 28])) := by
    rw [hdata]
    simp [encodeISODataBlock]
  have hsplit : data = ([27, 115, 27, 1] ++ t1 ++ [27, 2] ++ t2 ++ [27, 3] ++ t3) ++ [63, 28] := by
    rw [hdata]
    simp [encodeISODataBlock, List.append_assoc]
  have hterm : data.drop (data.length - 2) = [63, 28] := by
    rw [hsplit]
    exact drop_length_sub_two _ 63 28
  have htake4 : data.take 4 = isoHeader := by rw [hdata]; rfl
  rw [decodeISODataBlock]
  rw [if_neg (by
    rw [htake4]
    simp only [ne_eq, not_or, not_lt, not_not]
    exact ⟨by omega, trivial⟩)]
  rw [if_neg (by
    rw [hterm]
    simp only [isoTerminator, ne_eq, not_or, not_lt, not_not]
    exact ⟨by omega, trivial⟩)]
  have hidx1 : indexOfByte 27 (data.drop 4) = some t1.length := by
    rw [hdrop4]
    exact indexOfByte_append_cons h1 _
  unfold decodeStrips
  simp only [hidx1]
  rw [if_neg (by omega : ¬(t1.length + 4 = 4))]
  have hslice1 : goSlice data 4 (t1.length + 4) = .ok t1 := by
    rw [goSlice_ok (by omega) (by omega)]
    congr 1
    have he : t1.length + 4 - 4 = t1.length := by omega
    rw [he, hdrop4]
    exact List.take_left t1 _
  simp only [hslice1]
  have hdropA : data.drop (t1.length + 4) = 27 :: 2 :: (t2 ++ 27 :: 3 :: (t3 ++ [63, 28])) := by
    have hd : data.drop (t1.length + 4) = (data.drop 4).drop t1.length := by
      rw [List.drop_drop]
      congr 1
      omega
    rw [hd, hdrop4]
    exact List.drop_left t1 _
  unfold decodeTrack2
  rw [if_neg (by omega : ¬(t1.length + 4 + 2 ≥ data.length))]
  have hm2 : goSlice data (t1.length + 4) (t1.length + 4 + 2) = .ok [27, 2] := by
    rw [goSlice_ok (by omega) (by omega)]
    congr 1
    have he : t1.length + 4 + 2 - (t1.length + 4) = 2 := by omega
    rw [he, hdropA]
    rfl
  simp only [hm2]
  rw [if_neg (fun h => h rfl)]
  have hdropB : data.drop (t1.length + 4 + 2) = t2 ++ 27 :: 3 :: (t3 ++ [63, 28]) := by
    have hd : data.drop (t1.length + 4 + 2) = (data.drop (t1.length + 4)).drop 2 := by
      rw [List.drop_drop]
    rw [hd, hdropA]
    rfl
  have hsf : goSliceFrom data (t1.length + 4 + 2) = .ok (t2 ++ 27 :: 3 :: (t3 ++ [63, 28])) := by
    rw [goSliceFrom_ok (by omega), hdropB]
  simp only [hsf]
  have hidx2 : indexOfByte 27 (t2 ++ 27 :: 3 :: (t3 ++ [63, 28])) = some t2.length :=
    indexOfByte_append_cons h2 _
  simp only [hidx2]
  rw [if_neg (by omega : ¬(t2.length + (t1.length + 4 + 2) = t1.length + 4 + 2))]
  have hslice2 : goSlice data (t1.length + 4 + 2) (t2.length + (t1.length + 4 + 2)) = .ok t2 := by
    rw [goSlice_ok (by omega) (by omega)]
    congr 1
    have he : t2.length + (t1.length + 4 + 2) - (t1.length + 4 + 2) = t2.length := by omega
    rw [he, hdropB]
    exact List.take_left t2 _
  simp only [hslice2]
  have hdropC : data.drop (t2.length + (t1.length + 4 + 2)) = 27 :: 3 :: (t3 ++ [63, 28]) := by
    have hd : data.drop (t2.length + (t1.length + 4 + 2))
        = (data.drop (t1.length + 4 + 2)).drop t2.length := by
      rw [List.drop_drop]
      congr 1
      omega
    rw [hd, hdropB]
    exact List.drop_left t2 _
  unfold decodeTrack3
  rw [if_neg (by omega : ¬(t2.length + (t1.length + 4 + 2) + 2 ≥ data.length))]
  have hm3 : goSlice data (t2.length + (t1.length + 4 + 2))
      (t2.length + (t1.length + 4 + 2) + 2) = .ok [27, 3] := by
    rw [goSlice_ok (by omega) (by omega)]
    congr 1
    have he : t2.length + (t1.length + 4 + 2) + 2 - (t2.length + (t1.length + 4 + 2)) = 2 := by
      omega
    rw [he, hdropC]
    rfl
  simp only [hm3]
  rw [if_neg (fun h => h rfl)]
  rw [if_pos (by omega : t2.length + (t1.length + 4 + 2) + 2 < data.length)]
  have hdropD : data.drop (t2.length + (t1.length + 4 + 2) + 2) = t3 ++ [63, 28] := by
    have hd : data.drop (t2.length + (t1.length + 4 + 2) + 2)
        = (data.drop (t2.length + (t1.length + 4 + 2))).drop 2 := by
      rw [List.drop_drop]
    rw [hd, hdropC]
    rfl
  have hch : ∃ ch, data[t2.length + (t1.length + 4 + 2) + 2]? = some ch ∧ ch ≠ 27 := by
    have h0 := List.getElem?_drop data (t2.length + (t1.length + 4 + 2) + 2) 0
    rw [hdropD] at h0
    cases t3 with
    | nil => exact ⟨63, by simpa using h0.symm, by decide⟩
    | cons x xs =>
      have hx : x ≠ 27 := fun hh => h3 (by simp [hh])
      exact ⟨x, by simpa using h0.symm, hx⟩
  obtain ⟨ch, hgch, hch27⟩ := hch
  simp only [goIndex_ok hgch]
  rw [if_pos hch27]
  have hslice3 : goSlice data (t2.length + (t1.length + 4 + 2) + 2) (data.length - 2)
      = .ok t3 := by
    rw [goSlice_ok (by omega) (by omega)]
    congr 1
    have he : data.length - 2 - (t2.length + (t1.length + 4 + 2) + 2) = t3.length := by omega
    rw [he, hdropD]
    exact List.take_left t3 _
  simp only [hslice3]

theorem collectResponseAux_all_empty :
    ∀ chunks : List (List Nat), (∀ c ∈ chunks, c = []) →
      ∀ acc, collectResponseAux acc chunks = acc := by
  intro chunks
  induction chunks with
  | nil => intro _ acc; rfl
  | cons c rest ih =>
    intro h acc
    have hc : c = [] := h c (by simp)
    subst hc
    simp only [collectResponseAux, List.length_nil, if_pos rfl]
    exact ih (fun x hx => h x (by simp [hx])) acc

theorem runBPICommands_ok_of_status_ok (outcomes : Nat → Except EngineError CommandResponse)
    (hok : ∀ i r, outcomes i = .ok r → r.status = statusOk) :
    ∀ (ms : List Nat) (i : Nat), isStatusError (runBPICommands outcomes ms i) = false := by
  intro ms
  induction ms with
  | nil => intro i; rfl
  | cons m rest ih =>
    intro i
    cases houtcome : outcomes i with
    | error e =>
      simp only [runBPICommands, houtcome]
      rfl
    | ok resp =>
      simp only [runBPICommands, houtcome]
      rw [if_neg (fun hne => hne (hok i resp houtcome))]
      exact ih (i + 1)

/-! ## Claim theorems -/

/-- Claim C1, counterexample: the claim quantifies over "possibly empty"
track strings, but the decoder rejects a block whose second track field is
empty — `decode(encode("A", "", "C"))` fails with the `missing <ESC>[03]`
error instead of returning `("A", "", "C")`. -/
theorem decode_encode_empty_track2_fails :
    decodeISODataBlock (encodeISODataBlock [65] [] [67])
      = .error (.err (.missingMarker3 9)) := rfl

/-- Claim C1, amended: for all escape-free track strings with tracks 1 and 2
non-empty (track 3 may be empty), `decodeISODataBlock` inverts
`encodeISODataBlock` exactly. -/
theorem encode_decode_roundtrip (t1 t2 t3 : List Nat)
    (h1 : 27 ∉ t1) (h2 : 27 ∉ t2) (h3 : 27 ∉ t3)
    (hn1 : t1 ≠ []) (hn2 : t2 ≠ []) :
    decodeISODataBlock (encodeISODataBlock t1 t2 t3) = .ok (t1, t2, t3) :=
  encode_roundtrip_decode t1 t2 t3 h1 h2 h3 hn1 hn2

/-- Witness for C1's amended round-trip at a concrete input (with an empty
third track, which the round-trip does tolerate). -/
theorem encode_decode_roundtrip_witness :
    decodeISODataBlock (encodeISODataBlock [65] [66] []) = .ok ([65], [66], []) :=
  encode_decode_roundtrip [65] [66] [] (by decide) (by decide) (by decide)
    (by decide) (by decide)

/-- Claim C2: evaluation of the code at the claimed input. The spec says
`decode(encode("", "B", "C"))` yields `("", "B", "C")`, but the decoder's
zero-length-field branch advances `strip1End` past the `ESC 0x02` marker
before the marker is checked, so the check reads bytes 6..7 (`'B' ESC`)
instead of bytes 4..5 and the call fails with `missing <ESC>[02] at
position 6`. -/
theorem decode_encode_empty_track1_fails :
    decodeISODataBlock (encodeISODataBlock [] [66] [67])
      = .error (.err (.missingMarker2 6)) := rfl

/-- Claim C3: the response parse of `executeWaitResult` splits the
accumulated buffer at the last escape byte into status / result / data,
fails with `invalidResponseFormat` when a non-empty buffer has no escape
byte, and fails with `incompleteResponse` when the last escape byte is the
final buffer byte. -/
theorem engine_parse_splits_at_last_esc :
    (∀ (buf : List Nat) (pos : Nat),
        lastIndexOfByte 27 buf = some pos → pos + 1 < buf.length →
        parseResponse buf = .ok ⟨buf.getD (pos + 1) 0, buf.drop (pos + 2), buf.take pos⟩) ∧
    (∀ buf : List Nat, buf ≠ [] → lastIndexOfByte 27 buf = none →
        parseResponse buf = .error .invalidResponseFormat) ∧
    (∀ (buf : List Nat) (pos : Nat),
        lastIndexOfByte 27 buf = some pos → pos + 1 = buf.length →
        parseResponse buf = .error .incompleteResponse) := by
  refine ⟨?_, ?_, ?_⟩
  · intro buf pos hlast hlt
    unfold parseResponse
    rw [if_neg (by omega : ¬(buf.length = 0))]
    simp only [hlast]
    rw [if_neg (by omega : ¬(pos + 1 ≥ buf.length))]
  · intro buf hne hnone
    unfold parseResponse
    rw [if_neg (fun h => hne (List.length_eq_zero.mp h))]
    simp only [hnone]
  · intro buf pos hlast heq
    unfold parseResponse
    rw [if_neg (by omega : ¬(buf.length = 0))]
    simp only [hlast]
    rw [if_pos (by omega : pos + 1 ≥ buf.length)]

/-- Witness for C3: a buffer with an embedded escape byte inside `data`
still splits at the last escape byte; an escape-free buffer and a buffer
ending in the escape byte produce the two failure modes. -/
theorem engine_parse_splits_at_last_esc_witness :
    parseResponse [27, 65, 27, 48, 66] = .ok ⟨48, [66], [27, 65]⟩ ∧
    parseResponse [65, 66] = .error .invalidResponseFormat ∧
    parseResponse [65, 27] = .error .incompleteResponse := by
  refine ⟨?_, ?_, ?_⟩
  · have h := engine_parse_splits_at_last_esc.1 [27, 65, 27, 48, 66] 2 (by decide) (by decide)
    simpa using h
  · exact engine_parse_splits_at_last_esc.2.1 [65, 66] (by decide) (by decide)
  · exact engine_parse_splits_at_last_esc.2.2 [65, 27] 1 (by decide) (by decide)

/-- Claim C4: every facade operation that awaits a response maps a
non-`'0'` status byte to its operation-specific status error carrying the
operation name of its Go error format string and the exact status byte
(`SetBPI` additionally carries the mode byte), and a `'0'` status byte
never produces a status error. -/
theorem facade_status_byte_errors :
    (∀ st : Nat, st ≠ statusOk → ∀ res dat : List Nat,
      ReadTracks (.ok ⟨st, res, dat⟩) = .error (.statusError "read" st) ∧
      WriteTracks (.ok ⟨st, res, dat⟩) = .error (.statusError "write" st) ∧
      EraseTracks (.ok ⟨st, res, dat⟩) = .error (.statusError "erase" st) ∧
      SetCoercivity (.ok ⟨st, res, dat⟩) = .error (.statusError "set_coercivity" st) ∧
      SetBPC (.ok ⟨st, res, dat⟩) = .error (.statusError "set_bpc" st) ∧
      ReadRawTracks (.ok ⟨st, res, dat⟩) = .error (.statusError "read" st) ∧
      WriteRawTracks (.ok ⟨st, res, dat⟩) = .error (.statusError "write" st) ∧
      (∀ (b1 b2 b3 : Option Bool) (outcomes : Nat → Except EngineError CommandResponse)
          (m : Nat) (ms : List Nat),
        bpiModes b1 b2 b3 = m :: ms → outcomes 0 = .ok ⟨st, res, dat⟩ →
        SetBPI b1 b2 b3 outcomes = .error (.statusErrorMode "set_bpi" st m))) ∧
    (∀ res dat : List Nat,
      isStatusError (ReadTracks (.ok ⟨statusOk, res, dat⟩)) = false ∧
      isStatusError (WriteTracks (.ok ⟨statusOk, res, dat⟩)) = false ∧
      isStatusError (EraseTracks (.ok ⟨statusOk, res, dat⟩)) = false ∧
      isStatusError (SetCoercivity (.ok ⟨statusOk, res, dat⟩)) = false ∧
      isStatusError (SetBPC (.ok ⟨statusOk, res, dat⟩)) = false ∧
      isStatusError (ReadRawTracks (.ok ⟨statusOk, res, dat⟩)) = false ∧
      isStatusError (WriteRawTracks (.ok ⟨statusOk, res, dat⟩)) = false) ∧
    (∀ (b1 b2 b3 : Option Bool) (outcomes : Nat → Except EngineError CommandResponse),
      (∀ i r, outcomes i = .ok r → r.status = statusOk) →
      isStatusError (SetBPI b1 b2 b3 outcomes) = false) := by
  refine ⟨?_, ?_, ?_⟩
  · intro st hst res dat
    refine ⟨?_, ?_, ?_, ?_, ?_, ?_, ?_, ?_⟩
    · simp [ReadTracks, hst]
    · simp [WriteTracks, hst]
    · simp [EraseTracks, hst]
    · simp [SetCoercivity, hst]
    · simp [SetBPC, hst]
    · simp [ReadRawTracks, hst]
    · simp [WriteRawTracks, hst]
    · intro b1 b2 b3 outcomes m ms hmodes houtcome
      unfold SetBPI
      rw [hmodes]
      simp [runBPICommands, houtcome, hst]
  · intro res dat
    refine ⟨?_, ?_, ?_, ?_, ?_, ?_, ?_⟩
    · rcases hdec : decodeISODataBlock dat with e | ⟨s1, s2, s3⟩ <;>
        simp [ReadTracks, hdec, isStatusError]
    · simp [WriteTracks, isStatusError]
    · simp [EraseTracks, isStatusError]
    · simp [SetCoercivity, isStatusError]
    · simp [SetBPC, isStatusError]
    · simp [ReadRawTracks, isStatusError]
    · simp [WriteRawTracks, isStatusError]
  · intro b1 b2 b3 outcomes hok
    exact runBPICommands_ok_of_status_ok outcomes hok _ 0

/-- Witness for C4 at status byte `'1'` (49) and at the success byte `'0'`
(48), including the `SetBPI` case with track 1 set to high density. -/
theorem facade_status_byte_errors_witness :
    ReadTracks (.ok ⟨49, [], []⟩) = .error (.statusError "read" 49) ∧
    isStatusError (WriteTracks (.ok ⟨48, [], []⟩)) = false ∧
    SetBPI (some true) none none (fun _ => .ok ⟨49, [], []⟩) =
      .error (.statusErrorMode "set_bpi" 49 161) := by
  refine ⟨(facade_status_byte_errors.1 49 (by decide) [] []).1, ?_, ?_⟩
  · exact (facade_status_byte_errors.2.1 [] []).2.1
  · exact (facade_status_byte_errors.1 49 (by decide) [] []).2.2.2.2.2.2.2
      (some true) none none _ 161 [] (by decide) rfl

/-- Claim C5: `decodeISODataBlock` fails with the malformed-header error
exactly when the input is shorter than 4 bytes or does not begin with
`ESC 's' ESC 0x01`; in particular on the bytes of `"INVALID"` and on the
single byte `ESC`. -/
theorem decode_malformed_header_iff :
    (∀ data : List Nat,
      decodeISODataBlock data = .error (.err .malformedHeader) ↔
        (data.length < 4 ∨ data.take 4 ≠ isoHeader)) ∧
    decodeISODataBlock [73, 78, 86, 65, 76, 73, 68] = .error (.err .malformedHeader) ∧
    decodeISODataBlock [27] = .error (.err .malformedHeader) := by
  refine ⟨?_, rfl, rfl⟩
  intro data
  constructor
  · intro h
    by_contra hc
    unfold decodeISODataBlock at h
    rw [if_neg hc] at h
    revert h
    split
    · simp
    · intro h
      exact decodeStrips_ne_malformed data h
  · intro h
    unfold decodeISODataBlock
    rw [if_pos h]

/-- Claim C6: `EraseTracks` sends command code `c` followed by exactly one
bitmask byte in which bit 0 selects track 1, bit 1 track 2 and bit 2
track 3; in particular `EraseTracks(true, false, true)` sends `0x05`. -/
theorem eraseTracks_bitmask :
    (∀ t1 t2 t3 : Bool, eraseTracksCommand t1 t2 t3 =
      [99, (if t1 then 1 else 0) + (if t2 then 2 else 0) + (if t3 then 4 else 0)]) ∧
    eraseTracksCommand true false true = [99, 5] := by decide

/-- Claim C7, counterexample: the claim says the `SetBPI` mode bytes are
drawn from a fixed table of four codes, but the source uses six pairwise
distinct mode bytes — two concrete calls already exhibit all six. -/
theorem bpi_mode_table_not_four :
    bpiModes (some true) (some true) (some true) = [161, 210, 193] ∧
    bpiModes (some false) (some false) (some false) = [160, 75, 192] ∧
    (bpiModes (some true) (some true) (some true) ++
      bpiModes (some false) (some false) (some false)).dedup.length = 6 := by decide

/-- Claim C7, amended: `SetBPI` issues one `b` command per set track slot;
each command carries a single mode byte from the fixed six-entry table
(high and low code per track, `0xA1/0xA0`, `0xD2/0x4B`, `0xC1/0xC0`), and
the six codes are pairwise distinct (so in particular distinct per track
position). -/
theorem setBPI_mode_table_six :
    (∀ b1 b2 b3 : Option Bool,
      setBPICommands b1 b2 b3 = (bpiModes b1 b2 b3).map (fun m => [98, m]) ∧
      (bpiModes b1 b2 b3).length =
        ((if b1.isSome then 1 else 0) + (if b2.isSome then 1 else 0) +
          (if b3.isSome then 1 else 0)) ∧
      ∀ m ∈ bpiModes b1 b2 b3, m ∈ bpiModeTable) ∧
    bpiModeTable.Nodup ∧ bpiModeTable.length = 6 ∧
    bpiModes (some true) none none = [161] ∧ bpiModes (some false) none none = [160] ∧
    bpiModes none (some true) none = [210] ∧ bpiModes none (some false) none = [75] ∧
    bpiModes none none (some true) = [193] ∧ bpiModes none none (some false) = [192] := by
  decide

/-- Witness for C7's amended theorem: the high-density track-1 mode byte is
in the mode table. -/
theorem setBPI_mode_table_six_witness : (161 : Nat) ∈ bpiModeTable :=
  (setBPI_mode_table_six.1 (some true) none none).2.2 161 (by decide)

/-- Claim C8: when the transport yields no bytes for the whole timeout
window, the accumulated response stays empty and `executeWaitResult` fails
with the timeout error. The model is a pure function of the transport's
chunks (the Go `MSR` handle holds only the port and is never mutated), so
a subsequent call is unaffected. -/
theorem engine_timeout_on_silence (chunks : List (List Nat))
    (hsilent : ∀ c ∈ chunks, c = []) :
    collectResponseAux [] chunks = [] ∧ executeWaitResult chunks = .error .timeout := by
  have h := collectResponseAux_all_empty chunks hsilent []
  exact ⟨h, by unfold executeWaitResult; rw [h]; rfl⟩

/-- Witness for C8 at a concrete run of three zero-byte reads. -/
theorem engine_timeout_on_silence_witness :
    executeWaitResult [[], [], []] = .error .timeout :=
  (engine_timeout_on_silence [[], [], []] (by decide)).2

/-- Claim C9: the decoder is total — for every input it returns a triple or
one of its declared errors, and no Go string index or slice it evaluates
(`strip1End`, `strip2Start`, `strip2End`, `strip3Start`, the final
`data[strip3Start:len(data)-2]` slice) is ever out of bounds, i.e. the
`oob` panic state is unreachable. -/
theorem decode_never_out_of_bounds (data : List Nat) :
    isOobFailure (decodeISODataBlock data) = false := by
  unfold decodeISODataBlock
  split
  · rfl
  next h1 =>
    split
    · rfl
    next h2 =>
      push_neg at h1 h2
      exact decodeStrips_no_oob data h2.2 (by omega)

/-- Claim C10: `SetBPI` with all three track parameters `nil` builds an
empty mode list, sends no command, and succeeds for every transport
behaviour. -/
theorem setBPI_all_unset_noop :
    setBPICommands none none none = [] ∧
    ∀ outcomes : Nat → Except EngineError CommandResponse,
      SetBPI none none none outcomes = .ok () :=
  ⟨rfl, fun _ => rfl⟩

end Magstripe
